import Mathlib

/-!
# Verification of the PE header-resolution library

A shallow embedding of the PE (Portable Executable) parsing library:
the byte source is a `List Nat` of bytes, `io.SectionReader`/`binary.Read`
sequences become explicit `take`/`drop` and length checks, and fallible
parsing returns `Except`.  Machine-integer overflow is modelled with
explicit `% 2 ^ w` where the Go code performs wrapping arithmetic.

Every definition mirrors the corresponding Go function of the repository;
theorems then settle the specification claims against these definitions.
-/

set_option maxRecDepth 100000

deriving instance DecidableEq for Except

namespace PE

/-- A random-access byte source (the `ReadAtSeeker` of the library),
modelled as the full list of bytes of the underlying file. -/
abbrev ByteSrc := List Nat

/-- Wellformedness of a byte source: every element is an actual byte. -/
def SrcWF (src : ByteSrc) : Prop := ∀ b ∈ src, b < 256

instance (src : ByteSrc) : Decidable (SrcWF src) :=
  inferInstanceAs (Decidable (∀ b ∈ src, b < 256))

/-- Byte at index `i` (reads of checked-length windows only). -/
def byteAt (l : List Nat) (i : Nat) : Nat := l.getD i 0

/-- Little-endian decode of a 16-bit value, as performed by
`binary.Read(..., binary.LittleEndian, ...)`. -/
def le16 (b0 b1 : Nat) : Nat := b0 + 2 ^ 8 * b1

/-- Little-endian decode of a 32-bit value. -/
def le32 (b0 b1 b2 b3 : Nat) : Nat :=
  b0 + 2 ^ 8 * b1 + 2 ^ 16 * b2 + 2 ^ 24 * b3

/-- The `uint16` field at offset `i` of a decoded window. -/
def u16at (l : List Nat) (i : Nat) : Nat := le16 (byteAt l i) (byteAt l (i + 1))

/-- The `uint32` field at offset `i` of a decoded window. -/
def u32at (l : List Nat) (i : Nat) : Nat :=
  le32 (byteAt l i) (byteAt l (i + 1)) (byteAt l (i + 2)) (byteAt l (i + 3))

/-- Parse errors.  Each constructor corresponds to one `fmt.Errorf` site of
the Go source; the payloads of the signature errors are the expected and the
actually-read magic values that the Go error message formats. -/
inductive PError where
  /-- Error `pe.File.parseDOSHeader: unable to read signature`. -/
  | dosSigRead
  /-- Error `pe.File.parseDOSHeader: invalid signature; expected %04X, got %04X`. -/
  | dosInvalidSig (expected got : Nat)
  /-- Error `pe.File.parseDOSHeader: unable to read DOS header`. -/
  | dosRead
  /-- Error `pe.File.DOSStub: error reading DOS stub`. -/
  | dosStubRead
  /-- Error `pe.File.parseFileHeader: unable to read signature`. -/
  | peSigRead
  /-- Error `pe.File.parseFileHeader: invalid signature; expected %08X, got %08X`. -/
  | peInvalidSig (expected got : Nat)
  /-- Error `pe.File.parseFileHeader: unable to read file header`. -/
  | peRead
  /-- Error `pe.File.parseOptHeader: unable to read optional header`. -/
  | optRead
  /-- Error `pe.File.parseOptHeader: unable to read data directories`. -/
  | dataDirsRead
  /-- Error `pe.File.parseSectHeaders: error reading section header`. -/
  | sectRead
deriving DecidableEq, Repr

/-- DOS header size, including signature (`dosHdrSize`). -/
def dosHdrSize : Nat := 64

/-- File header size, including signature (`fileHdrSize`). -/
def fileHdrSize : Nat := 24

/-- Section header size (`sectHdrSize`). -/
def sectHdrSize : Nat := 40

/-- Maximum optional header size, which includes 16 data directories
(`maxOptHdrSize`). -/
def maxOptHdrSize : Nat := 224

/-- The `DOSHeader` structure (without the leading 2-byte "MZ" signature,
exactly as the Go struct that `binary.Read` fills). -/
structure DOSHeader where
  LastPageSize : Nat
  NPage : Nat
  NReloc : Nat
  NHdrPar : Nat
  MinAlloc : Nat
  MaxAlloc : Nat
  SS : Nat
  SP : Nat
  Checksum : Nat
  IP : Nat
  CS : Nat
  RelocTblOffset : Nat
  OverlayNum : Nat
  Res : List Nat
  OEMID : Nat
  OEMInfo : Nat
  Res2 : List Nat
  PEHdrOffset : Nat
deriving DecidableEq, Repr, Inhabited

/-- Little-endian decode of the 62-byte `DOSHeader` body (the bytes
following the 2-byte signature). -/
def decodeDOSHeader (b : List Nat) : DOSHeader where
  LastPageSize := u16at b 0
  NPage := u16at b 2
  NReloc := u16at b 4
  NHdrPar := u16at b 6
  MinAlloc := u16at b 8
  MaxAlloc := u16at b 10
  SS := u16at b 12
  SP := u16at b 14
  Checksum := u16at b 16
  IP := u16at b 18
  CS := u16at b 20
  RelocTblOffset := u16at b 22
  OverlayNum := u16at b 24
  Res := [u16at b 26, u16at b 28, u16at b 30, u16at b 32]
  OEMID := u16at b 34
  OEMInfo := u16at b 36
  Res2 := [u16at b 38, u16at b 40, u16at b 42, u16at b 44, u16at b 46,
           u16at b 48, u16at b 50, u16at b 52, u16at b 54, u16at b 56]
  PEHdrOffset := u32at b 58

/-- Model of `File.parseDOSHeader`: a 64-byte section reader at offset 0; the 2-byte
"MZ" signature is read and checked first, then the 62-byte header body.
The `log.Printf` warnings about non-zero reserved fields are advisory only
and do not influence the result, so they are not modelled. -/
def parseDOSHeader (src : ByteSrc) : Except PError DOSHeader :=
  let sr := src.take dosHdrSize
  if sr.length < 2 then .error .dosSigRead
  else
    let magic := le16 (byteAt sr 0) (byteAt sr 1)
    if magic ≠ 0x5A4D then .error (.dosInvalidSig 0x5A4D magic)
    else
      let body := sr.drop 2
      if body.length < 62 then .error .dosRead
      else .ok (decodeDOSHeader body)

/-- The `FileHeader` (COFF file header) structure, without the 4-byte
"PE\x5C0\x5C0" signature that precedes it on disk. -/
structure FileHeader where
  Arch : Nat
  NSection : Nat
  Created : Nat
  SymTblOffset : Nat
  NSymbol : Nat
  OptHdrSize : Nat
  Flags : Nat
deriving DecidableEq, Repr, Inhabited

/-- Little-endian decode of the 20-byte `FileHeader` body. -/
def decodeFileHeader (b : List Nat) : FileHeader where
  Arch := u16at b 0
  NSection := u16at b 2
  Created := u32at b 4
  SymTblOffset := u32at b 8
  NSymbol := u32at b 12
  OptHdrSize := u16at b 16
  Flags := u16at b 18

/-- Model of `File.parseFileHeader`: resolves the DOS header first, then reads a
24-byte window at `PEHdrOffset`; the 4-byte PE signature is checked before
the 20-byte header body is decoded. -/
def parseFileHeader (src : ByteSrc) : Except PError FileHeader :=
  match parseDOSHeader src with
  | .error e => .error e
  | .ok dos =>
    let sr := (src.drop dos.PEHdrOffset).take fileHdrSize
    if sr.length < 4 then .error .peSigRead
    else
      let magic := le32 (byteAt sr 0) (byteAt sr 1) (byteAt sr 2) (byteAt sr 3)
      if magic ≠ 0x4550 then .error (.peInvalidSig 0x4550 magic)
      else
        let body := sr.drop 4
        if body.length < 20 then .error .peRead
        else .ok (decodeFileHeader body)

/-- The `SectHeader` structure: one fixed 40-byte section header record. -/
structure SectHeader where
  Name : List Nat
  VirtSize : Nat
  RelAddr : Nat
  Size : Nat
  Offset : Nat
  RelocsOffset : Nat
  LineNumsOffset : Nat
  NReloc : Nat
  NLineNum : Nat
  Flags : Nat
deriving DecidableEq, Repr, Inhabited

/-- Little-endian decode of a 40-byte section header window. -/
def decodeSectHeader (b : List Nat) : SectHeader where
  Name := b.take 8
  VirtSize := u32at b 8
  RelAddr := u32at b 12
  Size := u32at b 16
  Offset := u32at b 20
  RelocsOffset := u32at b 24
  LineNumsOffset := u32at b 28
  NReloc := u16at b 32
  NLineNum := u16at b 34
  Flags := u32at b 36

/-- The read loop of `parseSectHeaders`: `n` successive `binary.Read`s of
40-byte records from the (already clipped) section reader contents `sr`,
preserving on-disk order. -/
def readSectHeaders : Nat → List Nat → Except PError (List SectHeader)
  | 0, _ => .ok []
  | n + 1, sr =>
    if sr.length < sectHdrSize then .error .sectRead
    else
      match readSectHeaders n (sr.drop sectHdrSize) with
      | .error e => .error e
      | .ok rest => .ok (decodeSectHeader (sr.take sectHdrSize) :: rest)

/-- Model of `File.parseSectHeaders`: the section headers start at
`PEHdrOffset + fileHdrSize + OptHdrSize` (the *declared* optional header
size field); `NSection` fixed 40-byte records are read through a section
reader clipped to `NSection * sectHdrSize` bytes. -/
def parseSectHeaders (src : ByteSrc) : Except PError (List SectHeader) :=
  match parseDOSHeader src with
  | .error e => .error e
  | .ok dos =>
    let optoff := dos.PEHdrOffset + fileHdrSize
    match parseFileHeader src with
    | .error e => .error e
    | .ok fh =>
      let sectHdrsOff := optoff + fh.OptHdrSize
      let sectHdrsSize := fh.NSection * sectHdrSize
      let sr := (src.drop sectHdrsOff).take sectHdrsSize
      readSectHeaders fh.NSection sr

/-- The fixed 96-byte `OptHeader32` sub-structure of the optional header. -/
structure OptHeader32 where
  State : Nat
  MajorLinkVer : Nat
  MinorLinkVer : Nat
  CodeSize : Nat
  DataSize : Nat
  BSSSize : Nat
  EntryRelAddr : Nat
  CodeBase : Nat
  DataBase : Nat
  ImageBase : Nat
  SectAlign : Nat
  FileAlign : Nat
  MajorOSVer : Nat
  MinorOSVer : Nat
  MajorImageVer : Nat
  MinorImageVer : Nat
  MajorSubsystemVer : Nat
  MinorSubsystemVer : Nat
  Res : Nat
  ImageSize : Nat
  HdrSize : Nat
  Checksum : Nat
  Subsystem : Nat
  Flags : Nat
  ReserveStackSize : Nat
  InitStackSize : Nat
  ReserveHeapSize : Nat
  InitHeapSize : Nat
  LoaderFlags : Nat
  NDataDir : Nat
deriving DecidableEq, Repr, Inhabited

/-- Little-endian decode of the 96-byte `OptHeader32` window. -/
def decodeOptHeader32 (b : List Nat) : OptHeader32 where
  State := u16at b 0
  MajorLinkVer := byteAt b 2
  MinorLinkVer := byteAt b 3
  CodeSize := u32at b 4
  DataSize := u32at b 8
  BSSSize := u32at b 12
  EntryRelAddr := u32at b 16
  CodeBase := u32at b 20
  DataBase := u32at b 24
  ImageBase := u32at b 28
  SectAlign := u32at b 32
  FileAlign := u32at b 36
  MajorOSVer := u16at b 40
  MinorOSVer := u16at b 42
  MajorImageVer := u16at b 44
  MinorImageVer := u16at b 46
  MajorSubsystemVer := u16at b 48
  MinorSubsystemVer := u16at b 50
  Res := u32at b 52
  ImageSize := u32at b 56
  HdrSize := u32at b 60
  Checksum := u32at b 64
  Subsystem := u16at b 68
  Flags := u16at b 70
  ReserveStackSize := u32at b 72
  InitStackSize := u32at b 76
  ReserveHeapSize := u32at b 80
  InitHeapSize := u32at b 84
  LoaderFlags := u32at b 88
  NDataDir := u32at b 92

/-- A `DataDirectory` entry: 8 on-disk bytes. -/
structure DataDirectory where
  RelAddr : Nat
  Size : Nat
deriving DecidableEq, Repr, Inhabited

/-- Decode `n` successive 8-byte data directory entries. -/
def readDataDirs : Nat → List Nat → List DataDirectory
  | 0, _ => []
  | n + 1, b => ⟨u32at b 0, u32at b 4⟩ :: readDataDirs n (b.drop 8)

/-- The `OptHeader` structure: the fixed sub-structure plus the
variable-length data directory slice. -/
structure OptHeader where
  fixed : OptHeader32
  DataDirs : List DataDirectory
deriving DecidableEq, Repr, Inhabited

/-- Model of `File.parseOptHeader`: resolves the DOS header (only — the COFF file
header is *not* consulted), then reads through a section reader of
`maxOptHdrSize` (224) bytes at `PEHdrOffset + fileHdrSize`: first the fixed
96-byte `OptHeader32`, then `make([]DataDirectory, NDataDir)` is allocated
and `binary.Read` reads `8 * NDataDir` bytes into it, failing if fewer are
available.  The `log.Printf` warning about a non-zero `Res` field is
advisory and not modelled. -/
def parseOptHeader (src : ByteSrc) : Except PError OptHeader :=
  match parseDOSHeader src with
  | .error e => .error e
  | .ok dos =>
    let optoff := dos.PEHdrOffset + fileHdrSize
    let sr := (src.drop optoff).take maxOptHdrSize
    if sr.length < 96 then .error .optRead
    else
      let h32 := decodeOptHeader32 (sr.take 96)
      let sr2 := sr.drop 96
      if sr2.length < 8 * h32.NDataDir then .error .dataDirsRead
      else .ok ⟨h32, readDataDirs h32.NDataDir sr2⟩

/-- The length of the slice allocated by `make([]DataDirectory,
opthdr.NDataDir)` in `parseOptHeader`, or `none` when that allocation site
is not reached.  In the Go source the allocation happens *before* the
`binary.Read` of the directory entries can fail, so the declared
`NDataDir` is used as the allocation size without any validation. -/
def optHdrAllocCount (src : ByteSrc) : Option Nat :=
  match parseDOSHeader src with
  | .error _ => none
  | .ok dos =>
    let sr := (src.drop (dos.PEHdrOffset + fileHdrSize)).take maxOptHdrSize
    if sr.length < 96 then none
    else some (decodeOptHeader32 (sr.take 96)).NDataDir

/-- The header fields of `File` populated by `File.Parse`. -/
structure ParsedFile where
  doshdr : DOSHeader
  fileHdr : FileHeader
  opthdr : Option OptHeader
  sectHdrs : List SectHeader
deriving DecidableEq, Repr, Inhabited

/-- Model of `File.Parse`: DOS header, COFF file header, optional header (only when
`OptHdrSize > 0`; otherwise the cached field stays `nil`/absent), then
section headers. -/
def Parse (src : ByteSrc) : Except PError ParsedFile :=
  match parseDOSHeader src with
  | .error e => .error e
  | .ok dos =>
  match parseFileHeader src with
  | .error e => .error e
  | .ok fh =>
  match (if fh.OptHdrSize > 0 then (parseOptHeader src).map some else .ok none :
      Except PError (Option OptHeader)) with
  | .error e => .error e
  | .ok opt =>
  match parseSectHeaders src with
  | .error e => .error e
  | .ok sects => .ok ⟨dos, fh, opt, sects⟩

/-- Outcome of `parseOverlay`: the Go function can return normally, return
an error, or crash with a runtime panic (from `make([]byte, n)` with a
negative `n`). -/
inductive OverlayResult where
  | ok (data : List Nat)
  | err (e : PError)
  | panic
deriving DecidableEq, Repr

/-- Model of `File.parseOverlay`: `overlayStart` is the maximum over all sections of
`int64(sectHdr.Offset + sectHdr.Size)` (a wrapping `uint32` sum), starting
from 0; `overlaySize = overlayEnd - overlayStart` with `overlayEnd` the
total source length.  `make([]byte, overlaySize)` panics when
`overlaySize` is negative; otherwise `ReadAt` reads the final
`overlaySize` bytes, which always succeeds because the range
`[overlayStart, overlayEnd)` lies inside the source. -/
def parseOverlay (src : ByteSrc) : OverlayResult :=
  match parseSectHeaders src with
  | .error e => .err e
  | .ok sectHdrs =>
    let overlayStart : Nat :=
      sectHdrs.foldl (fun acc h => max acc ((h.Offset + h.Size) % 2 ^ 32)) 0
    let overlayEnd := src.length
    let overlaySize : Int := (overlayEnd : Int) - (overlayStart : Int)
    if overlaySize < 0 then .panic
    else .ok (src.drop overlayStart)

/-- Model of `File.Section`: `ioutil.ReadAll` over
`io.NewSectionReader(file.r, int64(sectHdr.Offset), int64(sectHdr.Size))`.
`ReadAll` treats end-of-file as success, so the result is the available
prefix of the requested window and no error is ever produced for a plain
byte source. -/
def Section (src : ByteSrc) (sectHdr : SectHeader) : Except PError (List Nat) :=
  .ok ((src.drop sectHdr.Offset).take sectHdr.Size)

/-- The value `stubSize := int64(peoff - dosHdrSize)` computed by
`File.DOSStub`: `peoff` is a `uint32`, so the subtraction wraps modulo
`2 ^ 32` *before* the widening to `int64`; the result is never negative. -/
def dosStubSize (peoff : Nat) : Nat := (peoff + 2 ^ 32 - dosHdrSize) % 2 ^ 32

/-- Model of `File.DOSStub`: resolves the DOS header, computes the wrapped
`stubSize`, returns `nil, nil` (modelled `.ok []`) when `stubSize <= 0`
(which, the subtraction being wrapped `uint32` arithmetic, means
`stubSize == 0`), and otherwise `io.ReadFull`s `stubSize` bytes at offset
64, failing when fewer are available. -/
def DOSStub (src : ByteSrc) : Except PError (List Nat) :=
  match parseDOSHeader src with
  | .error e => .error e
  | .ok dos =>
    let stubSize := dosStubSize dos.PEHdrOffset
    if stubSize = 0 then .ok []
    else
      let sr := (src.drop dosHdrSize).take stubSize
      if sr.length < stubSize then .error .dosStubRead
      else .ok sr

/-- The raw on-disk FPO record (`FPODataRaw`). -/
structure FPODataRaw where
  OffsetStart : Nat
  FuncSize : Nat
  NLocals : Nat
  Params : Nat
  Prolog : Nat
  Bitfield : Nat
deriving DecidableEq, Repr

/-- The decoded FPO record (`FPOData`). -/
structure FPOData where
  OffsetStart : Nat
  FuncSize : Nat
  NLocals : Nat
  Params : Nat
  Prolog : Nat
  Regs : Nat
  HasSEH : Bool
  UseBP : Bool
  Reserved : Nat
  Frame : Nat
deriving DecidableEq, Repr

/-- Constant `FrameTypeFPO`. -/
def FrameTypeFPO : Nat := 0
/-- Constant `FrameTypeTrap`. -/
def FrameTypeTrap : Nat := 1
/-- Constant `FrameTypeTSS`. -/
def FrameTypeTSS : Nat := 2
/-- Constant `FrameTypeNonFPO`. -/
def FrameTypeNonFPO : Nat := 3

/-- Model of `ParseFPOData`: unpack the bitfield byte with the masks and shifts of
the source; `NLocals` is scaled in `uint64` arithmetic and `Params` in
`uint32` arithmetic, hence the explicit wrap-around moduli. -/
def ParseFPOData (raw : FPODataRaw) : FPOData :=
  let regs := raw.Bitfield &&& 0x07
  let hasSEH := raw.Bitfield &&& 0x08 != 0
  let useBP := raw.Bitfield &&& 0x10 != 0
  let reserved := (raw.Bitfield &&& 0x20) >>> 5
  let frame := (raw.Bitfield &&& 0xC0) >>> 6
  { OffsetStart := raw.OffsetStart
    FuncSize := raw.FuncSize
    NLocals := raw.NLocals * 4 % 2 ^ 64
    Params := raw.Params * 4 % 2 ^ 32
    Prolog := raw.Prolog
    Regs := regs
    HasSEH := hasSEH
    UseBP := useBP
    Reserved := reserved
    Frame := frame }

/-- One piece of the `ss []string` list built by `SectFlag.String`:
either a recognized flag name from `sectFlagName`, an
`"unknown flag: 0x%08X"` marker carrying the offending mask, an
`"align %d"` rendering carrying the alignment in bytes, or an
`"unknown align flag: 0x%08X"` marker. -/
inductive SectToken where
  | flag (s : String)
  | unknown (mask : Nat)
  | align (bytes : Nat)
  | unknownAlign (v : Nat)
deriving DecidableEq, Repr

/-- The `sectFlagName` map from a flag mask to its string description. -/
def sectFlagName (mask : Nat) : Option String :=
  if mask = 0x00000020 then some "code"
  else if mask = 0x00000040 then some "data"
  else if mask = 0x00000080 then some "bss"
  else if mask = 0x00000200 then some "link info"
  else if mask = 0x00000800 then some "link remove"
  else if mask = 0x00001000 then some "link COMDAT"
  else if mask = 0x00004000 then some "defer speculative exceptions"
  else if mask = 0x00008000 then some "global pointer reference"
  else if mask = 0x01000000 then some "relocs overflow"
  else if mask = 0x02000000 then some "mem discard"
  else if mask = 0x04000000 then some "mem no cache"
  else if mask = 0x08000000 then some "mem no page"
  else if mask = 0x10000000 then some "mem shared"
  else if mask = 0x20000000 then some "mem exec"
  else if mask = 0x40000000 then some "mem read"
  else if mask = 0x80000000 then some "mem write"
  else none

/-- The string appended for a single set bit in the per-bit loop of
`SectFlag.String`: the name found in `sectFlagName`, or the
`"unknown flag"` marker. -/
def tokenForMask (mask : Nat) : SectToken :=
  match sectFlagName mask with
  | some s => .flag s
  | none => .unknown mask

/-- One iteration of the per-bit loop of `SectFlag.String` at bit `i`
(`mask = 1 << i`): alignment-range masks (`SectFlagObjAlign1 ..
SectFlagObjAlign8192`, i.e. `0x00100000 .. 0x00E00000`) are skipped; any
other set bit is cleared out of `flags` (`flags &^= mask`) and rendered. -/
def sectFlagStep (st : Nat × List SectToken) (i : Nat) : Nat × List SectToken :=
  let mask := 2 ^ i
  if 0x00100000 ≤ mask ∧ mask ≤ 0x00E00000 then st
  else if st.1 &&& mask ≠ 0 then
    -- `flags &^= mask` in `uint32` arithmetic: AND with the complement.
    (st.1 &&& (0xFFFFFFFF ^^^ mask), st.2 ++ [tokenForMask mask])
  else st

/-- The `switch` of `SectFlag.String` mapping an alignment flag value to
its byte count (`align` stays 0 on fallthrough). -/
def sectAlignBytes (flags : Nat) : Nat :=
  if flags = 0x00100000 then 1
  else if flags = 0x00200000 then 2
  else if flags = 0x00300000 then 4
  else if flags = 0x00400000 then 8
  else if flags = 0x00500000 then 16
  else if flags = 0x00600000 then 32
  else if flags = 0x00700000 then 64
  else if flags = 0x00800000 then 128
  else if flags = 0x00900000 then 256
  else if flags = 0x00A00000 then 512
  else if flags = 0x00B00000 then 1024
  else if flags = 0x00C00000 then 2048
  else if flags = 0x00D00000 then 4096
  else if flags = 0x00E00000 then 8192
  else 0

/-- The post-loop alignment rendering of `SectFlag.String`: only when the
remaining `flags` value (the alignment field, all other bits having been
cleared by the loop) lies in `0x00100000 .. 0x00E00000` is the alignment
piece appended. -/
def sectFlagFinal (st : Nat × List SectToken) : List SectToken :=
  if 0x00100000 ≤ st.1 ∧ st.1 ≤ 0x00E00000 then
    st.2 ++
      [if sectAlignBytes st.1 = 0 then SectToken.unknownAlign st.1
       else SectToken.align (sectAlignBytes st.1)]
  else st.2

/-- The list of string pieces built by `SectFlag.String` for a 32-bit
flags word: the per-bit loop over bits `0..31`, then the post-loop
alignment rendering.  (`String()` itself joins the pieces with `"|"`, or
returns `"none"` when the list is empty.) -/
def sectFlagTokens (flags0 : Nat) : List SectToken :=
  sectFlagFinal ((List.range 32).foldl sectFlagStep (flags0, []))

/-! ## Concrete byte sources used as test inputs -/

/-- A wellformed 64-byte DOS header block: "MZ", 58 zero bytes, and
`PEHdrOffset` encoded little-endian in the last four bytes. -/
def dos64 (peoff : Nat) : List Nat :=
  [0x4D, 0x5A] ++ List.replicate 58 0 ++
    [peoff % 256, peoff / 256 % 256, peoff / 65536 % 256, peoff / 16777216 % 256]

/-- The 4-byte PE signature "PE\x5C0\x5C0". -/
def pesig : List Nat := [0x50, 0x45, 0, 0]

/-- A 20-byte COFF file header body with the given `NSection` and
`OptHdrSize` fields and all other fields zero. -/
def fh20 (nsect optHdrSize : Nat) : List Nat :=
  [0, 0, nsect % 256, nsect / 256] ++ List.replicate 12 0 ++
    [optHdrSize % 256, optHdrSize / 256, 0, 0]

/-- A 40-byte section header record with the given `Size` and `Offset`
fields and all other fields zero. -/
def sect40 (size off : Nat) : List Nat :=
  List.replicate 16 0 ++
    [size % 256, size / 256 % 256, size / 65536 % 256, size / 16777216 % 256] ++
    [off % 256, off / 256 % 256, off / 65536 % 256, off / 16777216 % 256] ++
    List.replicate 16 0

/-- A 184-byte source whose optional header declares
`NDataDir = 0xFFFFFFFF`: a valid DOS header with `PEHdrOffset = 64`, 116
zero bytes, and `0xFFFFFFFF` in the `NDataDir` field (file offset 180). -/
def c1src : ByteSrc := dos64 64 ++ List.replicate 116 0 ++ [255, 255, 255, 255]

/-- A 128-byte source declaring one section whose raw extent
(`Offset + Size = 4096`) lies far past the end of the file. -/
def c2src : ByteSrc := dos64 64 ++ pesig ++ fh20 1 0 ++ sect40 4096 0

/-- A 184-byte source with `OptHdrSize = 0` and 96 zero bytes following
the COFF file header. -/
def c3src : ByteSrc := dos64 64 ++ pesig ++ fh20 0 0 ++ List.replicate 96 0

/-- An 88-byte source with `NSection = 0` and `OptHdrSize = 0`: nothing
follows the COFF file header. -/
def c4src : ByteSrc := dos64 64 ++ pesig ++ fh20 0 0

/-- A 10-byte source for exercising `Section`. -/
def c5src : ByteSrc := List.replicate 10 7

/-- A section header demanding 100 bytes at offset 0. -/
def c5hdr : SectHeader :=
  { Name := List.replicate 8 0, VirtSize := 0, RelAddr := 0, Size := 100,
    Offset := 0, RelocsOffset := 0, LineNumsOffset := 0, NReloc := 0,
    NLineNum := 0, Flags := 0 }

/-! ## C1 — counts are not validated before allocation -/

/-- C1: the claim that a corrupt, huge `NDataDir` never causes an
allocation of the declared size—that the count is capped or validated
against the remaining byte-source length before any allocation—fails on
the code.  On `c1src` (184 bytes, `NDataDir = 0xFFFFFFFF`, zero bytes
remaining after the fixed optional-header fields) `parseOptHeader` does
fail, with the data-directory read error, but only after
`make([]DataDirectory, NDataDir)` has already been sized by the raw
declared count 4294967295 (about 32 GiB), far beyond the whole 184-byte
source. -/
theorem C1_alloc_of_declared_count_before_validation :
    parseOptHeader c1src = .error .dataDirsRead ∧
    optHdrAllocCount c1src = some 4294967295 ∧
    c1src.length = 184 ∧ 184 < 8 * 4294967295 := by
  refine ⟨by decide, by decide, by decide, by decide⟩

/-! ## C2 — a section extent past end-of-source makes the overlay panic -/

/-- C2: the claim that an overlay size `<= 0` is empty-not-an-error and
that constructing the overlay buffer never panics fails on the code.  On
`c2src` (128 bytes, one section with `Offset + Size = 4096`) the computed
`overlaySize` is `128 - 4096 < 0` and `make([]byte, overlaySize)` panics
with a `makeslice` runtime error instead of returning an empty overlay. -/
theorem C2_overlay_negative_size_panics :
    parseOverlay c2src = .panic ∧ c2src.length = 128 := by
  refine ⟨by decide, by decide⟩

/-! ## C3 — the optional-header accessor ignores OptionalHeaderSize -/

/-- C3 counterexample: on `c3src` the COFF file header declares
`OptHdrSize = 0`, yet `OptHeader()` (which never consults the file
header) happily reads and decodes 96 bytes at the optional-header offset
and returns a populated structure rather than an "absent" result. -/
theorem C3_optheader_accessor_decodes_despite_zero_size :
    (parseFileHeader c3src).map FileHeader.OptHdrSize = .ok 0 ∧
    (parseOptHeader c3src).map (fun o => o.fixed.NDataDir) = .ok 0 ∧
    (parseOptHeader c3src).map (fun o => o.DataDirs.length) = .ok 0 := by
  refine ⟨by decide, by decide, by decide⟩

/-- C3 (amended): on the `Parse` path the optional header is indeed left
absent whenever `OptHdrSize = 0` — `Parse` skips `parseOptHeader` and the
cached field stays `nil`. -/
theorem C3_parse_leaves_opthdr_absent (src : ByteSrc) (pf : ParsedFile)
    (h : Parse src = .ok pf) (h0 : pf.fileHdr.OptHdrSize = 0) :
    pf.opthdr = none := by
  unfold Parse at h
  cases hdos : parseDOSHeader src with
  | error e => rw [hdos] at h; simp at h
  | ok dos =>
  rw [hdos] at h
  cases hfh : parseFileHeader src with
  | error e => rw [hfh] at h; simp at h
  | ok fh =>
  rw [hfh] at h
  dsimp only [] at h
  by_cases hsz : fh.OptHdrSize > 0
  · rw [if_pos hsz] at h
    cases hopt : parseOptHeader src with
    | error e => rw [hopt] at h; simp [Except.map] at h
    | ok opt =>
      rw [hopt] at h
      simp only [Except.map] at h
      cases hsect : parseSectHeaders src with
      | error e => rw [hsect] at h; simp at h
      | ok sects =>
        rw [hsect] at h
        simp only [Except.ok.injEq] at h
        subst h
        simp only [] at h0
        omega
  · rw [if_neg hsz] at h
    cases hsect : parseSectHeaders src with
    | error e => rw [hsect] at h; simp at h
    | ok sects =>
      rw [hsect] at h
      simp only [Except.ok.injEq] at h
      subst h
      rfl

/-- The `ParsedFile` produced by `Parse` on `c3src`. -/
def c3pf : ParsedFile :=
  match Parse c3src with
  | .ok pf => pf
  | .error _ => default

/-- C3 witness: `Parse c3src` succeeds, its file header declares
`OptHdrSize = 0`, and by the theorem its optional header is absent. -/
theorem C3_parse_leaves_opthdr_absent_witness :
    (Parse c3src = .ok c3pf ∧ c3pf.fileHdr.OptHdrSize = 0) ∧
    c3pf.opthdr = none :=
  ⟨⟨by decide, by decide⟩,
    C3_parse_leaves_opthdr_absent c3src c3pf (by decide) (by decide)⟩

/-! ## Helper lemmas about byte sources -/

/-- A byte of a wellformed source (or the out-of-range default 0) is below
256. -/
theorem byteAt_lt_256 (l : List Nat) (hwf : ∀ b ∈ l, b < 256) (i : Nat) :
    byteAt l i < 256 := by
  unfold byteAt
  by_cases hi : i < l.length
  · have : l.getD i 0 = l[i] := by
      simp [List.getD_eq_getElem?_getD, List.getElem?_eq_getElem hi]
    rw [this]
    exact hwf _ (l.getElem_mem hi)
  · rw [List.getD_eq_default _ _ (by omega)]
    omega

/-- The value `le32` of four bytes is a 32-bit value. -/
theorem le32_lt (b0 b1 b2 b3 : Nat) (h0 : b0 < 256) (h1 : b1 < 256)
    (h2 : b2 < 256) (h3 : b3 < 256) : le32 b0 b1 b2 b3 < 2 ^ 32 := by
  unfold le32
  omega

/-- Successful DOS-header parsing needs at least the full 64 header bytes,
and on a wellformed source the decoded `PEHdrOffset` is a 32-bit value. -/
theorem parseDOSHeader_ok_inv (src : ByteSrc) (dos : DOSHeader)
    (h : parseDOSHeader src = .ok dos) (hwf : SrcWF src) :
    64 ≤ src.length ∧ dos.PEHdrOffset < 2 ^ 32 := by
  unfold parseDOSHeader at h
  dsimp only [] at h
  split at h
  · simp at h
  · split at h
    · simp at h
    · split at h
      · simp at h
      · rename_i hsig _ hbody
        simp only [Except.ok.injEq] at h
        have hlen : 64 ≤ src.length := by
          simp only [List.length_drop, List.length_take] at hbody
          omega
        refine ⟨hlen, ?_⟩
        subst h
        have hwf' : ∀ b ∈ (src.take dosHdrSize).drop 2, b < 256 := by
          intro b hb
          exact hwf b (List.mem_of_mem_take (List.mem_of_mem_drop hb))
        exact le32_lt _ _ _ _ (byteAt_lt_256 _ hwf' _) (byteAt_lt_256 _ hwf' _)
          (byteAt_lt_256 _ hwf' _) (byteAt_lt_256 _ hwf' _)

/-! ## C4 — zero sections: the overlay is the whole file -/

/-- C4 counterexample: on `c4src` (88 header bytes, `NSection = 0`) the
section list is empty as the claim says, but the overlay is the *entire*
88-byte source starting at offset 0, not the (empty) region after the
optional/file header at offset 88: `overlayStart` defaults to 0 when
there are no sections. -/
theorem C4_zero_sections_overlay_not_after_headers :
    parseSectHeaders c4src = .ok [] ∧
    parseOverlay c4src = .ok c4src ∧
    c4src.length = 88 := by
  refine ⟨by decide, by decide, by decide⟩

/-- C4 (amended): with `NSection = 0` the section-header accessor returns
an empty list and the overlay defaults to the whole source from offset 0
(the code initializes `overlayStart` to 0, not to the end of the parsed
headers). -/
theorem C4_zero_sections_overlay_whole_source (src : ByteSrc) (fh : FileHeader)
    (hfh : parseFileHeader src = .ok fh) (h0 : fh.NSection = 0) :
    parseSectHeaders src = .ok [] ∧ parseOverlay src = .ok src := by
  cases hdos : parseDOSHeader src with
  | error e =>
    unfold parseFileHeader at hfh
    rw [hdos] at hfh
    simp at hfh
  | ok dos =>
  have hsect : parseSectHeaders src = .ok [] := by
    unfold parseSectHeaders
    rw [hdos, hfh]
    dsimp only []
    rw [h0]
    rfl
  refine ⟨hsect, ?_⟩
  unfold parseOverlay
  rw [hsect]
  dsimp only [List.foldl]
  rw [if_neg (by omega)]
  rw [List.drop_zero]

/-- The `FileHeader` parsed from `c4src`. -/
def c4fh : FileHeader :=
  match parseFileHeader c4src with
  | .ok fh => fh
  | .error _ => default

/-- C4 witness: the amended theorem applied to the concrete `c4src`. -/
theorem C4_zero_sections_overlay_whole_source_witness :
    (parseFileHeader c4src = .ok c4fh ∧ c4fh.NSection = 0) ∧
    (parseSectHeaders c4src = .ok [] ∧ parseOverlay c4src = .ok c4src) :=
  ⟨⟨by decide, by decide⟩,
    C4_zero_sections_overlay_whole_source c4src c4fh (by decide) (by decide)⟩

/-! ## C5 — Section() can succeed with fewer than Size bytes -/

/-- C5 counterexample: on a 10-byte source, `Section` with a header
demanding `Size = 100` bytes succeeds with only 10 bytes instead of
failing: `ioutil.ReadAll` treats the early end-of-file as success. -/
theorem C5_section_succeeds_with_fewer_bytes :
    Section c5src c5hdr = .ok (List.replicate 10 7) ∧
    (List.replicate 10 7).length = 10 ∧ c5hdr.Size = 100 := by
  refine ⟨by decide, by decide, by decide⟩

/-- C5 (amended): `Section` always succeeds and returns the *available*
prefix of the requested window: the bytes from `Offset` to
`min (Offset + Size) length`; in particular exactly `Size` bytes whenever
the window lies inside the source, an empty slice when `Size = 0`, and
silently fewer than `Size` bytes when the source is too short. -/
theorem C5_section_returns_available_window (src : ByteSrc) (hdr : SectHeader)
    (l : List Nat) (h : Section src hdr = .ok l) :
    l = (src.drop hdr.Offset).take hdr.Size ∧
    l.length = min hdr.Size (src.length - hdr.Offset) ∧
    (hdr.Size = 0 → l = []) ∧
    (hdr.Offset + hdr.Size ≤ src.length → l.length = hdr.Size) := by
  unfold Section at h
  simp only [Except.ok.injEq] at h
  subst h
  refine ⟨rfl, by simp, ?_, ?_⟩
  · intro h0
    rw [h0]
    rfl
  · intro hle
    simp only [List.length_take, List.length_drop]
    omega

/-- A section header whose window `[2, 6)` lies inside the 10-byte
`c5src`. -/
def c5hdrIn : SectHeader :=
  { Name := List.replicate 8 0, VirtSize := 0, RelAddr := 0, Size := 4,
    Offset := 2, RelocsOffset := 0, LineNumsOffset := 0, NReloc := 0,
    NLineNum := 0, Flags := 0 }

/-- C5 witness: the amended theorem applied at an in-bounds window. -/
theorem C5_section_returns_available_window_witness :
    Section c5src c5hdrIn = .ok [7, 7, 7, 7] ∧
    ([7, 7, 7, 7] = (c5src.drop c5hdrIn.Offset).take c5hdrIn.Size ∧
      ([7, 7, 7, 7] : List Nat).length =
        min c5hdrIn.Size (c5src.length - c5hdrIn.Offset) ∧
      (c5hdrIn.Size = 0 → ([7, 7, 7, 7] : List Nat) = []) ∧
      (c5hdrIn.Offset + c5hdrIn.Size ≤ c5src.length →
        ([7, 7, 7, 7] : List Nat).length = c5hdrIn.Size)) :=
  ⟨by decide, C5_section_returns_available_window c5src c5hdrIn _ (by decide)⟩

/-! ## C10 — the DOS stub and the wrapping PEHdrOffset - 64 subtraction -/

/-- C10: `DOSStub` returns `nil, nil` exactly when `PEHdrOffset = 64`,
and for `PEHdrOffset < 64` the `uint32` subtraction `peoff - dosHdrSize`
wraps to `2^32 - (64 - peoff)`, so the `stubSize <= 0` guard is not taken
and the attempted multi-gigabyte read fails with an error on any source
shorter than `2^32` bytes. -/
theorem C10_dosstub_wrap (src : ByteSrc) (dos : DOSHeader) (hwf : SrcWF src)
    (hdos : parseDOSHeader src = .ok dos) (hlen : src.length < 2 ^ 32) :
    (DOSStub src = .ok [] ↔ dos.PEHdrOffset = 64) ∧
    (dos.PEHdrOffset < 64 →
      dosStubSize dos.PEHdrOffset = 2 ^ 32 - (64 - dos.PEHdrOffset) ∧
      DOSStub src = .error .dosStubRead) := by
  obtain ⟨hsrc64, hpe32⟩ := parseDOSHeader_ok_inv src dos hdos hwf
  unfold DOSStub
  rw [hdos]
  dsimp only []
  constructor
  · constructor
    · intro hok
      by_cases hz : dosStubSize dos.PEHdrOffset = 0
      · unfold dosStubSize dosHdrSize at hz
        omega
      · rw [if_neg hz] at hok
        split at hok
        · simp at hok
        · rename_i hge
          simp only [not_lt, List.length_take, List.length_drop] at hge
          simp only [Except.ok.injEq] at hok
          have h0 : ((src.drop dosHdrSize).take (dosStubSize dos.PEHdrOffset)).length = 0 := by
            rw [hok]
            rfl
          simp only [List.length_take, List.length_drop] at h0
          omega
    · intro h64
      have hz : dosStubSize dos.PEHdrOffset = 0 := by
        unfold dosStubSize
        rw [h64]
        decide
      rw [if_pos hz]
  · intro hlt
    have hsz : dosStubSize dos.PEHdrOffset = 2 ^ 32 - (64 - dos.PEHdrOffset) := by
      unfold dosStubSize dosHdrSize
      omega
    refine ⟨hsz, ?_⟩
    rw [if_neg (by rw [hsz]; omega)]
    rw [if_pos (by
      simp only [List.length_take, List.length_drop]
      rw [hsz]
      unfold dosHdrSize
      omega)]

/-- The `DOSHeader` parsed from `c10src`. -/
def c10src : ByteSrc := dos64 10

/-- The DOS header of `c10src`, whose `PEHdrOffset` is 10 (< 64). -/
def c10dos : DOSHeader :=
  match parseDOSHeader c10src with
  | .ok dos => dos
  | .error _ => default

/-- C10 witness: on the 64-byte `c10src` with `PEHdrOffset = 10`, the
wrapped stub size is `2^32 - 54` and `DOSStub` fails with the stub-read
error. -/
theorem C10_dosstub_wrap_witness :
    (SrcWF c10src ∧ parseDOSHeader c10src = .ok c10dos ∧
      c10src.length < 2 ^ 32 ∧ c10dos.PEHdrOffset < 64) ∧
    (dosStubSize c10dos.PEHdrOffset = 2 ^ 32 - (64 - c10dos.PEHdrOffset) ∧
      DOSStub c10src = .error .dosStubRead) :=
  ⟨⟨by decide, by decide, by decide, by decide⟩,
    (C10_dosstub_wrap c10src c10dos (by decide) (by decide) (by decide)).2
      (by decide)⟩

/-! ## C8 — section headers come from sequential 40-byte windows -/

/-- A successful run of the read loop yields exactly `n` records, the
`i`-th decoded from the `i`-th 40-byte window of the clipped reader. -/
theorem readSectHeaders_ok_spec (n : Nat) :
    ∀ (sr : List Nat) (l : List SectHeader), readSectHeaders n sr = .ok l →
      l.length = n ∧
      ∀ i, i < n → l.getD i default =
        decodeSectHeader ((sr.drop (sectHdrSize * i)).take sectHdrSize) := by
  induction n with
  | zero =>
    intro sr l h
    unfold readSectHeaders at h
    simp only [Except.ok.injEq] at h
    subst h
    exact ⟨rfl, by omega⟩
  | succ n ih =>
    intro sr l h
    unfold readSectHeaders at h
    split at h
    · simp at h
    · cases hrec : readSectHeaders n (sr.drop sectHdrSize) with
      | error e => rw [hrec] at h; simp at h
      | ok rest =>
        rw [hrec] at h
        simp only [Except.ok.injEq] at h
        subst h
        obtain ⟨hlen, hw⟩ := ih (sr.drop sectHdrSize) rest hrec
        refine ⟨by simp [hlen], ?_⟩
        intro i hi
        cases i with
        | zero => simp
        | succ j =>
          have hj := hw j (by omega)
          simp only [List.getD_cons_succ]
          rw [hj, List.drop_drop]
          have harith : sectHdrSize + sectHdrSize * j = sectHdrSize * (j + 1) := by
            ring
          rw [harith]

/-- C8: whenever the DOS and COFF file headers parse and the section
headers parse, the section list has exactly `NSection` entries, the
`i`-th decoded little-endian from the 40-byte window at file offset
`PEHdrOffset + 24 + OptHdrSize + 40 * i` (the *declared*
`OptHdrSize` field), in on-disk order. -/
theorem C8_sect_headers_decoded_from_windows (src : ByteSrc) (dos : DOSHeader)
    (fh : FileHeader) (l : List SectHeader)
    (hdos : parseDOSHeader src = .ok dos)
    (hfh : parseFileHeader src = .ok fh)
    (hl : parseSectHeaders src = .ok l) :
    l.length = fh.NSection ∧
    ∀ i, i < fh.NSection →
      l.getD i default =
        decodeSectHeader
          ((src.drop (dos.PEHdrOffset + fileHdrSize + fh.OptHdrSize +
            sectHdrSize * i)).take sectHdrSize) := by
  unfold parseSectHeaders at hl
  rw [hdos, hfh] at hl
  dsimp only [] at hl
  obtain ⟨hlen, hw⟩ := readSectHeaders_ok_spec _ _ _ hl
  refine ⟨hlen, ?_⟩
  intro i hi
  rw [hw i hi]
  rw [List.drop_take, List.drop_drop, List.take_take]
  have hmin : min sectHdrSize (fh.NSection * sectHdrSize - sectHdrSize * i) =
      sectHdrSize := by
    unfold sectHdrSize
    omega
  rw [hmin]

/-- A 128-byte source with one all-zero section header. -/
def c8src : ByteSrc := dos64 64 ++ pesig ++ fh20 1 0 ++ List.replicate 40 0

/-- The DOS header of `c8src`. -/
def c8dos : DOSHeader :=
  match parseDOSHeader c8src with
  | .ok dos => dos
  | .error _ => default

/-- The COFF file header of `c8src`. -/
def c8fh : FileHeader :=
  match parseFileHeader c8src with
  | .ok fh => fh
  | .error _ => default

/-- The section header list of `c8src`. -/
def c8l : List SectHeader :=
  match parseSectHeaders c8src with
  | .ok l => l
  | .error _ => default

/-- C8 witness: on `c8src` the single section header is decoded from the
40-byte window at file offset 88. -/
theorem C8_sect_headers_decoded_from_windows_witness :
    (parseDOSHeader c8src = .ok c8dos ∧ parseFileHeader c8src = .ok c8fh ∧
      parseSectHeaders c8src = .ok c8l ∧ 0 < c8fh.NSection) ∧
    (c8l.length = c8fh.NSection ∧
      c8l.getD 0 default =
        decodeSectHeader
          ((c8src.drop (c8dos.PEHdrOffset + fileHdrSize + c8fh.OptHdrSize +
            sectHdrSize * 0)).take sectHdrSize)) :=
  ⟨⟨by decide, by decide, by decide, by decide⟩,
    ⟨(C8_sect_headers_decoded_from_windows c8src c8dos c8fh c8l (by decide)
        (by decide) (by decide)).1,
      (C8_sect_headers_decoded_from_windows c8src c8dos c8fh c8l (by decide)
        (by decide) (by decide)).2 0 (by decide)⟩⟩

/-! ## C9 — signature checks precede all dependent parsing -/

/-- C9: a bad "MZ" signature makes the DOS-header parse fail with the
invalid-signature error and every dependent parse (file header, optional
header, section headers, the full `Parse` chain) propagates exactly that
error without attempting its own structure; likewise a bad "PE\x5C0\x5C0"
signature at `PEHdrOffset` fails the file-header parse and every
structure depending on it. -/
theorem C9_signature_checks_precede_dependent_parsing :
    (∀ src : ByteSrc, SrcWF src → 2 ≤ src.length →
      ¬(byteAt src 0 = 0x4D ∧ byteAt src 1 = 0x5A) →
      parseDOSHeader src =
        .error (.dosInvalidSig 0x5A4D (le16 (byteAt src 0) (byteAt src 1))) ∧
      parseFileHeader src =
        .error (.dosInvalidSig 0x5A4D (le16 (byteAt src 0) (byteAt src 1))) ∧
      parseOptHeader src =
        .error (.dosInvalidSig 0x5A4D (le16 (byteAt src 0) (byteAt src 1))) ∧
      parseSectHeaders src =
        .error (.dosInvalidSig 0x5A4D (le16 (byteAt src 0) (byteAt src 1))) ∧
      Parse src =
        .error (.dosInvalidSig 0x5A4D (le16 (byteAt src 0) (byteAt src 1)))) ∧
    (∀ (src : ByteSrc) (dos : DOSHeader), SrcWF src →
      parseDOSHeader src = .ok dos →
      4 ≤ ((src.drop dos.PEHdrOffset).take fileHdrSize).length →
      ¬(byteAt ((src.drop dos.PEHdrOffset).take fileHdrSize) 0 = 0x50 ∧
        byteAt ((src.drop dos.PEHdrOffset).take fileHdrSize) 1 = 0x45 ∧
        byteAt ((src.drop dos.PEHdrOffset).take fileHdrSize) 2 = 0 ∧
        byteAt ((src.drop dos.PEHdrOffset).take fileHdrSize) 3 = 0) →
      parseFileHeader src =
        .error (.peInvalidSig 0x4550
          (le32 (byteAt ((src.drop dos.PEHdrOffset).take fileHdrSize) 0)
            (byteAt ((src.drop dos.PEHdrOffset).take fileHdrSize) 1)
            (byteAt ((src.drop dos.PEHdrOffset).take fileHdrSize) 2)
            (byteAt ((src.drop dos.PEHdrOffset).take fileHdrSize) 3))) ∧
      parseSectHeaders src =
        .error (.peInvalidSig 0x4550
          (le32 (byteAt ((src.drop dos.PEHdrOffset).take fileHdrSize) 0)
            (byteAt ((src.drop dos.PEHdrOffset).take fileHdrSize) 1)
            (byteAt ((src.drop dos.PEHdrOffset).take fileHdrSize) 2)
            (byteAt ((src.drop dos.PEHdrOffset).take fileHdrSize) 3))) ∧
      Parse src =
        .error (.peInvalidSig 0x4550
          (le32 (byteAt ((src.drop dos.PEHdrOffset).take fileHdrSize) 0)
            (byteAt ((src.drop dos.PEHdrOffset).take fileHdrSize) 1)
            (byteAt ((src.drop dos.PEHdrOffset).take fileHdrSize) 2)
            (byteAt ((src.drop dos.PEHdrOffset).take fileHdrSize) 3)))) := by
  constructor
  · intro src hwf hlen hm
    have hb0 : byteAt src 0 < 256 := byteAt_lt_256 src hwf 0
    have hb1 : byteAt src 1 < 256 := byteAt_lt_256 src hwf 1
    have e0 : byteAt (src.take dosHdrSize) 0 = byteAt src 0 := by
      unfold byteAt
      simp [List.getD_eq_getElem?_getD, List.getElem?_take_of_lt
        (show 0 < dosHdrSize by decide)]
    have e1 : byteAt (src.take dosHdrSize) 1 = byteAt src 1 := by
      unfold byteAt
      simp [List.getD_eq_getElem?_getD, List.getElem?_take_of_lt
        (show 1 < dosHdrSize by decide)]
    have hmagic : le16 (byteAt src 0) (byteAt src 1) ≠ 0x5A4D := by
      intro heq
      unfold le16 at heq
      exact hm ⟨by omega, by omega⟩
    have hdos : parseDOSHeader src =
        .error (.dosInvalidSig 0x5A4D (le16 (byteAt src 0) (byteAt src 1))) := by
      unfold parseDOSHeader
      dsimp only []
      rw [e0, e1]
      rw [if_neg (by simp only [List.length_take]; unfold dosHdrSize; omega)]
      rw [if_pos hmagic]
    refine ⟨hdos, ?_, ?_, ?_, ?_⟩
    · unfold parseFileHeader
      rw [hdos]
    · unfold parseOptHeader
      rw [hdos]
    · unfold parseSectHeaders
      rw [hdos]
    · unfold Parse
      rw [hdos]
  · intro src dos hwf hdos h4 hm
    have hsub : ∀ b ∈ (src.drop dos.PEHdrOffset).take fileHdrSize, b < 256 := by
      intro b hb
      exact hwf b (List.mem_of_mem_drop (List.mem_of_mem_take hb))
    have hb0 := byteAt_lt_256 _ hsub 0
    have hb1 := byteAt_lt_256 _ hsub 1
    have hb2 := byteAt_lt_256 _ hsub 2
    have hb3 := byteAt_lt_256 _ hsub 3
    have hmagic : le32 (byteAt ((src.drop dos.PEHdrOffset).take fileHdrSize) 0)
        (byteAt ((src.drop dos.PEHdrOffset).take fileHdrSize) 1)
        (byteAt ((src.drop dos.PEHdrOffset).take fileHdrSize) 2)
        (byteAt ((src.drop dos.PEHdrOffset).take fileHdrSize) 3) ≠ 0x4550 := by
      intro heq
      unfold le32 at heq
      exact hm ⟨by omega, by omega, by omega, by omega⟩
    have hfh : parseFileHeader src =
        .error (.peInvalidSig 0x4550
          (le32 (byteAt ((src.drop dos.PEHdrOffset).take fileHdrSize) 0)
            (byteAt ((src.drop dos.PEHdrOffset).take fileHdrSize) 1)
            (byteAt ((src.drop dos.PEHdrOffset).take fileHdrSize) 2)
            (byteAt ((src.drop dos.PEHdrOffset).take fileHdrSize) 3))) := by
      unfold parseFileHeader
      rw [hdos]
      dsimp only []
      rw [if_neg (by omega)]
      rw [if_pos hmagic]
    refine ⟨hfh, ?_, ?_⟩
    · unfold parseSectHeaders
      rw [hdos]
      dsimp only []
      rw [hfh]
    · unfold Parse
      rw [hdos, hfh]

/-- A 2-byte source with a bad "MZ" signature. -/
def c9badDOS : ByteSrc := [0, 0]

/-- A 68-byte source with a valid DOS header and a bad PE signature. -/
def c9badPE : ByteSrc := dos64 64 ++ [0, 0, 0, 0]

/-- The DOS header of `c9badPE`. -/
def c9dos : DOSHeader :=
  match parseDOSHeader c9badPE with
  | .ok dos => dos
  | .error _ => default

/-- C9 witness: the two scenarios at concrete sources. -/
theorem C9_signature_checks_precede_dependent_parsing_witness :
    (parseDOSHeader c9badDOS = .error (.dosInvalidSig 0x5A4D 0) ∧
      parseFileHeader c9badDOS = .error (.dosInvalidSig 0x5A4D 0) ∧
      parseOptHeader c9badDOS = .error (.dosInvalidSig 0x5A4D 0) ∧
      parseSectHeaders c9badDOS = .error (.dosInvalidSig 0x5A4D 0) ∧
      Parse c9badDOS = .error (.dosInvalidSig 0x5A4D 0)) ∧
    (parseFileHeader c9badPE = .error (.peInvalidSig 0x4550 0) ∧
      parseSectHeaders c9badPE = .error (.peInvalidSig 0x4550 0) ∧
      Parse c9badPE = .error (.peInvalidSig 0x4550 0)) :=
  ⟨C9_signature_checks_precede_dependent_parsing.1 c9badDOS (by decide)
      (by decide) (by decide),
    C9_signature_checks_precede_dependent_parsing.2 c9badPE c9dos (by decide)
      (by decide) (by decide) (by decide)⟩

/-! ## C7 — FPO bitfield decoding -/

/-- C7: `ParseFPOData` copies `OffsetStart`, `FuncSize` and `Prolog`
unchanged, scales `NLocals` and `Params` by 4 (dwords on disk to bytes),
and splits the bitfield byte into `Regs` (bits 0–2), `HasSEH` (bit 3),
`UseBP` (bit 4), `Reserved` (bit 5) and `Frame` (bits 6–7, value 3 being
`FrameTypeNonFPO`). -/
theorem C7_parseFPOData_decodes_bitfield (raw : FPODataRaw)
    (hb : raw.Bitfield < 256) (hn : raw.NLocals < 2 ^ 32)
    (hp : raw.Params < 2 ^ 16) :
    (ParseFPOData raw).OffsetStart = raw.OffsetStart ∧
    (ParseFPOData raw).FuncSize = raw.FuncSize ∧
    (ParseFPOData raw).Prolog = raw.Prolog ∧
    (ParseFPOData raw).NLocals = 4 * raw.NLocals ∧
    (ParseFPOData raw).Params = 4 * raw.Params ∧
    (ParseFPOData raw).Regs = raw.Bitfield % 8 ∧
    (ParseFPOData raw).HasSEH = raw.Bitfield.testBit 3 ∧
    (ParseFPOData raw).UseBP = raw.Bitfield.testBit 4 ∧
    (ParseFPOData raw).Reserved = raw.Bitfield / 2 ^ 5 % 2 ∧
    (ParseFPOData raw).Frame = raw.Bitfield / 2 ^ 6 ∧
    (raw.Bitfield / 2 ^ 6 = 3 → (ParseFPOData raw).Frame = FrameTypeNonFPO) := by
  have hbits : ∀ b : Nat, b < 256 →
      b &&& 0x07 = b % 8 ∧
      ((b &&& 0x08 != 0) = b.testBit 3) ∧
      ((b &&& 0x10 != 0) = b.testBit 4) ∧
      (b &&& 0x20) >>> 5 = b / 2 ^ 5 % 2 ∧
      (b &&& 0xC0) >>> 6 = b / 2 ^ 6 := by decide
  obtain ⟨h1, h2, h3, h4, h5⟩ := hbits raw.Bitfield hb
  unfold ParseFPOData
  refine ⟨rfl, rfl, rfl, ?_, ?_, h1, h2, h3, h4, h5, fun hf => by
    dsimp only []
    rw [h5, hf]
    rfl⟩
  · dsimp only []
    rw [Nat.mod_eq_of_lt (by omega)]
    ring
  · dsimp only []
    rw [Nat.mod_eq_of_lt (by omega)]
    ring

/-- The example raw FPO record: bitfield byte `0b11011101`. -/
def c7raw : FPODataRaw :=
  { OffsetStart := 1, FuncSize := 2, NLocals := 7, Params := 3, Prolog := 9,
    Bitfield := 0xDD }

/-- C7 witness: the theorem at the concrete record `c7raw`, whose frame
bits decode to `NonFPO` and whose counts are scaled by 4. -/
theorem C7_parseFPOData_decodes_bitfield_witness :
    (c7raw.Bitfield < 256 ∧ c7raw.NLocals < 2 ^ 32 ∧ c7raw.Params < 2 ^ 16) ∧
    ((ParseFPOData c7raw).OffsetStart = c7raw.OffsetStart ∧
      (ParseFPOData c7raw).FuncSize = c7raw.FuncSize ∧
      (ParseFPOData c7raw).Prolog = c7raw.Prolog ∧
      (ParseFPOData c7raw).NLocals = 4 * c7raw.NLocals ∧
      (ParseFPOData c7raw).Params = 4 * c7raw.Params ∧
      (ParseFPOData c7raw).Regs = c7raw.Bitfield % 8 ∧
      (ParseFPOData c7raw).HasSEH = c7raw.Bitfield.testBit 3 ∧
      (ParseFPOData c7raw).UseBP = c7raw.Bitfield.testBit 4 ∧
      (ParseFPOData c7raw).Reserved = c7raw.Bitfield / 2 ^ 5 % 2 ∧
      (ParseFPOData c7raw).Frame = c7raw.Bitfield / 2 ^ 6 ∧
      (c7raw.Bitfield / 2 ^ 6 = 3 →
        (ParseFPOData c7raw).Frame = FrameTypeNonFPO)) :=
  ⟨⟨by decide, by decide, by decide⟩,
    C7_parseFPOData_decodes_bitfield c7raw (by decide) (by decide) (by decide)⟩

/-! ## C6 — section-flags rendering -/

/-- A mask `2 ^ i` lies in the skipped alignment range exactly for the
bit positions 20–23. -/
theorem skip_range_iff (i : Nat) :
    (0x00100000 ≤ 2 ^ i ∧ 2 ^ i ≤ 0x00E00000) ↔ (20 ≤ i ∧ i ≤ 23) := by
  constructor
  · rintro ⟨h1, h2⟩
    have hlo : 20 ≤ i := by
      by_contra h
      push_neg at h
      have : (2 : Nat) ^ i ≤ 2 ^ 19 := Nat.pow_le_pow_right (by omega) (by omega)
      have h19 : (2 : Nat) ^ 19 = 524288 := by norm_num
      omega
    have hhi : i ≤ 23 := by
      by_contra h
      push_neg at h
      have : (2 : Nat) ^ 24 ≤ 2 ^ i := Nat.pow_le_pow_right (by omega) (by omega)
      have h24 : (2 : Nat) ^ 24 = 16777216 := by norm_num
      omega
    exact ⟨hlo, hhi⟩
  · rintro ⟨h1, h2⟩
    interval_cases i <;> refine ⟨by norm_num, by norm_num⟩

/-- For a single-bit mask, `flags &&& mask ≠ 0` is exactly the bit test
of the masked position. -/
theorem and_two_pow_ne_zero_iff (n i : Nat) :
    n &&& 2 ^ i ≠ 0 ↔ n.testBit i = true := by
  rw [Nat.and_two_pow]
  cases h : n.testBit i <;> simp [Nat.pow_eq_zero]

/-- The step `sectFlagStep` written as a single conditional. -/
theorem sectFlagStep_eq (st : Nat × List SectToken) (i : Nat) :
    sectFlagStep st i =
      if 0x00100000 ≤ 2 ^ i ∧ 2 ^ i ≤ 0x00E00000 then st
      else if st.1 &&& 2 ^ i ≠ 0 then
        (st.1 &&& (0xFFFFFFFF ^^^ 2 ^ i), st.2 ++ [tokenForMask (2 ^ i)])
      else st := rfl

/-- The `Option SectToken` contributed by bit `i` of `w` in the per-bit
loop: nothing for the skipped alignment bits 20–23 and for clear bits,
the rendered token for any other set bit. -/
def loopTokenAt (w : Nat) (i : Nat) : Option SectToken :=
  if 20 ≤ i ∧ i ≤ 23 then none
  else if w.testBit i then some (tokenForMask (2 ^ i)) else none

/-- Loop invariant for the per-bit loop of `SectFlag.String` on a 32-bit
word: after the first `n` iterations the accumulated flags value retains
exactly the skipped alignment bits and the not-yet-visited bits of `w`,
and the token list is the in-order rendering of the visited set bits. -/
theorem sectFlagLoop_inv (w : Nat) (hw : w < 2 ^ 32) (n : Nat) :
    (∀ j, (((List.range n).foldl sectFlagStep (w, [])).1.testBit j = true ↔
      (w.testBit j = true ∧ ((20 ≤ j ∧ j ≤ 23) ∨ n ≤ j)))) ∧
    ((List.range n).foldl sectFlagStep (w, [])).2 =
      (List.range n).filterMap (loopTokenAt w) := by
  induction n with
  | zero =>
    refine ⟨fun j => ?_, rfl⟩
    simp [List.range_zero]
  | succ n ih =>
    obtain ⟨ih1, ih2⟩ := ih
    rw [List.range_succ, List.foldl_append, List.filterMap_append]
    simp only [List.foldl_cons, List.foldl_nil, List.filterMap_cons,
      List.filterMap_nil]
    rw [sectFlagStep_eq]
    by_cases hskip : 0x00100000 ≤ (2 : Nat) ^ n ∧ (2 : Nat) ^ n ≤ 0x00E00000
    · rw [if_pos hskip]
      have hsk : 20 ≤ n ∧ n ≤ 23 := (skip_range_iff n).mp hskip
      refine ⟨fun j => ?_, ?_⟩
      · rw [ih1 j]
        constructor <;> rintro ⟨hwj, h⟩ <;> exact ⟨hwj, by omega⟩
      · rw [ih2]
        simp [loopTokenAt, hsk]
    · rw [if_neg hskip]
      have hsk : ¬(20 ≤ n ∧ n ≤ 23) := fun h => hskip ((skip_range_iff n).mpr h)
      by_cases hbit :
          ((List.range n).foldl sectFlagStep (w, [])).1 &&& 2 ^ n ≠ 0
      · rw [if_pos hbit]
        have hwn : w.testBit n = true := by
          have hh := (and_two_pow_ne_zero_iff _ n).mp hbit
          rw [ih1 n] at hh
          exact hh.1
        have h32 : (0xFFFFFFFF : Nat) = 2 ^ 32 - 1 := by norm_num
        refine ⟨fun j => ?_, ?_⟩
        · rw [Nat.testBit_and, Nat.testBit_xor, h32,
            Nat.testBit_two_pow_sub_one, Nat.testBit_two_pow]
          by_cases hj : j = n
          · subst hj
            have hn32 : j < 32 := by
              rcases Nat.lt_or_ge j 32 with h | h
              · exact h
              · exfalso
                have hf : w.testBit j = false := Nat.testBit_lt_two_pow
                  (lt_of_lt_of_le hw (Nat.pow_le_pow_right (by omega) h))
                rw [hwn] at hf
                exact absurd hf (by decide)
            have hx : (decide (j < 32) ^^ decide (j = j)) = false := by
              simp [hn32]
            rw [hx, Bool.and_false]
            constructor
            · intro h
              exact absurd h (by decide)
            · rintro ⟨hwj, h⟩
              exfalso
              rcases h with h | h
              · exact hsk h
              · omega
          · by_cases hj32 : j < 32
            · have hx : (decide (j < 32) ^^ decide (n = j)) = true := by
                simp [hj32, Ne.symm hj]
              rw [hx, Bool.and_true, ih1 j]
              constructor <;> rintro ⟨hwj, h⟩ <;> exact ⟨hwj, by omega⟩
            · have hwj : w.testBit j = false := Nat.testBit_lt_two_pow
                (lt_of_lt_of_le hw (Nat.pow_le_pow_right (by omega) (by omega)))
              have hstj :
                  ((List.range n).foldl sectFlagStep (w, [])).1.testBit j
                    = false := by
                rw [← Bool.not_eq_true, ih1 j]
                simp [hwj]
              rw [hstj, Bool.false_and]
              constructor
              · intro h
                exact absurd h (by decide)
              · rintro ⟨hwj', h⟩
                rw [hwj] at hwj'
                exact absurd hwj' (by decide)
        · rw [ih2]
          simp [loopTokenAt, hsk, hwn]
      · rw [if_neg hbit]
        have hwn : w.testBit n = false := by
          by_contra h
          rw [Bool.not_eq_false] at h
          exact hbit ((and_two_pow_ne_zero_iff _ n).mpr
            ((ih1 n).mpr ⟨h, Or.inr (Nat.le_refl n)⟩))
        refine ⟨fun j => ?_, ?_⟩
        · rw [ih1 j]
          by_cases hj : j = n
          · subst hj
            constructor <;> rintro ⟨hwj, h⟩ <;>
              exact absurd hwj (by simp [hwn])
          · constructor <;> rintro ⟨hwj, h⟩ <;> exact ⟨hwj, by omega⟩
        · rw [ih2]
          simp [loopTokenAt, hsk, hwn]

/-- Full characterization of the rendered pieces: the per-bit tokens of
the non-alignment set bits, followed by an `align` token exactly when the
alignment field (bits 20–23) holds a value 1–14; field values 0 and 15
contribute nothing. -/
theorem sectFlagTokens_characterization (w : Nat) (hw : w < 2 ^ 32) :
    sectFlagTokens w =
      (List.range 32).filterMap (loopTokenAt w) ++
        (if 1 ≤ w / 2 ^ 20 % 16 ∧ w / 2 ^ 20 % 16 ≤ 14 then
          [SectToken.align (2 ^ (w / 2 ^ 20 % 16 - 1))]
        else []) := by
  obtain ⟨h1, h2⟩ := sectFlagLoop_inv w hw 32
  have hF : ((List.range 32).foldl sectFlagStep (w, [])).1 =
      2 ^ 20 * (w / 2 ^ 20 % 16) := by
    apply Nat.eq_of_testBit_eq
    intro j
    have hr : (2 ^ 20 * (w / 2 ^ 20 % 16)).testBit j =
        (decide (j ≥ 20) && ((w / 2 ^ 20 % 16).testBit (j - 20))) := by
      rw [show (2 : Nat) ^ 20 * (w / 2 ^ 20 % 16) = (w / 2 ^ 20 % 16) <<< 20 by
        rw [Nat.shiftLeft_eq]; ring]
      rw [Nat.testBit_shiftLeft]
    rw [hr]
    have hg : (w / 2 ^ 20 % 16).testBit (j - 20) =
        (decide (j - 20 < 4) && w.testBit (20 + (j - 20))) := by
      rw [show (16 : Nat) = 2 ^ 4 by norm_num, Nat.testBit_mod_two_pow,
        ← Nat.shiftRight_eq_div_pow, Nat.testBit_shiftRight]
    rw [hg]
    rcases Nat.lt_or_ge j 20 with hj | hj
    · have hL : (((List.range 32).foldl sectFlagStep (w, [])).1).testBit j
          = false := by
        rw [← Bool.not_eq_true, h1 j]
        rintro ⟨_, h | h⟩ <;> omega
      rw [hL, decide_eq_false (by omega : ¬j ≥ 20), Bool.false_and]
    · rcases Nat.lt_or_ge j 24 with hj24 | hj24
      · have hjj : 20 + (j - 20) = j := by omega
        rw [hjj, decide_eq_true (by omega : j ≥ 20),
          decide_eq_true (by omega : j - 20 < 4), Bool.true_and, Bool.true_and]
        cases hwj : w.testBit j
        · rw [← Bool.not_eq_true, h1 j]
          rintro ⟨hwj', _⟩
          rw [hwj] at hwj'
          exact absurd hwj' (by decide)
        · rw [(h1 j).mpr ⟨hwj, Or.inl (by omega)⟩]
      · rw [decide_eq_false (by omega : ¬j - 20 < 4), Bool.false_and,
          Bool.and_false]
        rw [← Bool.not_eq_true, h1 j]
        rcases Nat.lt_or_ge j 32 with hj32 | hj32
        · rintro ⟨_, h | h⟩ <;> omega
        · rintro ⟨hwj, _⟩
          have hwf : w.testBit j = false := Nat.testBit_lt_two_pow
            (lt_of_lt_of_le hw (Nat.pow_le_pow_right (by omega) hj32))
          rw [hwf] at hwj
          exact absurd hwj (by decide)
  unfold sectFlagTokens sectFlagFinal
  rw [h2, hF]
  have hg16 : w / 2 ^ 20 % 16 < 16 := Nat.mod_lt _ (by norm_num)
  set g := w / 2 ^ 20 % 16 with hgdef
  interval_cases g <;> norm_num [sectAlignBytes]

/-- The per-bit loop never renders alignment tokens. -/
theorem tokenForMask_not_align (m : Nat) :
    (∀ a, tokenForMask m ≠ SectToken.align a) ∧
    (∀ v, tokenForMask m ≠ SectToken.unknownAlign v) := by
  unfold tokenForMask
  cases hs : sectFlagName m
  · exact ⟨fun a h => by simp at h, fun v h => by simp at h⟩
  · exact ⟨fun a h => by simp at h, fun v h => by simp at h⟩

/-- C6 (amended): for every 32-bit flags word the decoder treats bits
20–23 as a single alignment value: field values 1–14 are mapped through
the fixed table (rendering `align (2 ^ (value - 1))` bytes), every set
bit outside 20–23 is rendered as a recognized flag name or an explicit
unknown-flag marker — but the alignment field value 15 (all four bits
set) is silently dropped: it renders no alignment token at all. -/
theorem C6_flags_rendering_with_align_table (w : Nat) (hw : w < 2 ^ 32) :
    (∀ i, i < 32 → ¬(20 ≤ i ∧ i ≤ 23) → w.testBit i = true →
      tokenForMask (2 ^ i) ∈ sectFlagTokens w) ∧
    (1 ≤ w / 2 ^ 20 % 16 → w / 2 ^ 20 % 16 ≤ 14 →
      SectToken.align (2 ^ (w / 2 ^ 20 % 16 - 1)) ∈ sectFlagTokens w) ∧
    (w / 2 ^ 20 % 16 = 15 →
      (∀ a, SectToken.align a ∉ sectFlagTokens w) ∧
      (∀ v, SectToken.unknownAlign v ∉ sectFlagTokens w)) := by
  have hchar := sectFlagTokens_characterization w hw
  refine ⟨?_, ?_, ?_⟩
  · intro i hi hna hbit
    rw [hchar]
    apply List.mem_append_left
    rw [List.mem_filterMap]
    exact ⟨i, List.mem_range.mpr hi, by simp [loopTokenAt, hna, hbit]⟩
  · intro hlo hhi
    rw [hchar]
    apply List.mem_append_right
    rw [if_pos ⟨hlo, hhi⟩]
    exact List.mem_singleton.mpr rfl
  · intro h15
    have hnone : ∀ t ∈ sectFlagTokens w,
        (∀ a, t ≠ SectToken.align a) ∧ (∀ v, t ≠ SectToken.unknownAlign v) := by
      intro t hmem
      rw [hchar] at hmem
      rcases List.mem_append.mp hmem with hm | hm
      · obtain ⟨i, _, hsome⟩ := List.mem_filterMap.mp hm
        unfold loopTokenAt at hsome
        split at hsome
        · exact absurd hsome (by simp)
        · split at hsome
          · simp only [Option.some.injEq] at hsome
            rw [← hsome]
            exact tokenForMask_not_align _
          · exact absurd hsome (by simp)
      · rw [if_neg (by omega)] at hm
        exact absurd hm (by simp)
    exact ⟨fun a hmem => (hnone _ hmem).1 a rfl,
      fun v hmem => (hnone _ hmem).2 v rfl⟩

/-- C6 counterexample: the flags word `0x00F00000` (alignment field 15,
bit 20 set among others) renders *no* pieces at all — `String()` returns
`"none"` — so its set bits are silently dropped, contradicting the claim
that no set bit is ever dropped from the rendering. -/
theorem C6_align15_silently_dropped :
    sectFlagTokens 0x00F00000 = [] ∧
    Nat.testBit 0x00F00000 20 = true := by
  refine ⟨by decide, by decide⟩

/-- C6 witness: on `0x00500023` (bits 0, 1, 5 set and alignment field 5)
the rendering contains the recognized name for bit 5 (`"code"`) and the
table-mapped alignment `align 16`. -/
theorem C6_flags_rendering_with_align_table_witness :
    ((0x00500023 : Nat) < 2 ^ 32) ∧
    SectToken.flag "code" ∈ sectFlagTokens 0x00500023 ∧
    SectToken.align 16 ∈ sectFlagTokens 0x00500023 := by
  refine ⟨by norm_num, ?_, ?_⟩
  · have h := (C6_flags_rendering_with_align_table 0x00500023 (by norm_num)).1
      5 (by omega) (by omega) (by decide)
    have he : tokenForMask (2 ^ 5) = SectToken.flag "code" := rfl
    rw [he] at h
    exact h
  · have h := (C6_flags_rendering_with_align_table 0x00500023
      (by norm_num)).2.1 (by norm_num) (by norm_num)
    have he : (2 : Nat) ^ ((0x00500023 : Nat) / 2 ^ 20 % 16 - 1) = 16 := by
      norm_num
    rw [he] at h
    exact h

end PE
